import Mathlib

/-!
Verification of the recipe-generation response parsing of the basil app.

The Response Parser of the spec corresponds to the function renderMarkdown
in src/react-with-flask/src/dashboard.jsx.  Text is modelled as List Char
and every JavaScript string/regex operation used by the source is embedded
as an executable Lean function on List Char.  The backend pieces that are
not part of src/ (the structured macro extraction and the recommendation
orchestrator) are modelled from the spec and marked as such.
-/

set_option autoImplicit false

namespace Basil

/-- Characters that are written via their code point to keep the file free of
delimiter characters inside literals: apostrophe. -/
def apC : Char := Char.ofNat 39

/-- Backtick character. -/
def btC : Char := Char.ofNat 96

/-- Left curly brace character. -/
def lbC : Char := Char.ofNat 123

/-- Right curly brace character. -/
def rbC : Char := Char.ofNat 125

/-- Double-quote character. -/
def qtC : Char := Char.ofNat 34

/-- JavaScript whitespace (the characters of the regex class backslash-s that
occur in ASCII plus the no-break space), as used by String.prototype.trim and
the whitespace regex class in dashboard.jsx. -/
def isWsChar (c : Char) : Bool :=
  c.toNat == 32 || c.toNat == 9 || c.toNat == 10 || c.toNat == 13 ||
  c.toNat == 11 || c.toNat == 12 || c.toNat == 160

/-- Lowercasing a text, modelling String.prototype.toLowerCase on the ASCII
texts the parser handles. -/
def lowerL (cs : List Char) : List Char := cs.map Char.toLower

/-- JavaScript String.prototype.trim on both ends. -/
def jsTrim (cs : List Char) : List Char :=
  ((cs.dropWhile isWsChar).reverse.dropWhile isWsChar).reverse

/-- Substring test, modelling String.prototype.includes. -/
def containsSub (needle : List Char) : List Char → Bool
  | [] => needle.isEmpty
  | c :: cs => needle.isPrefixOf (c :: cs) || containsSub needle cs

/-- Locate the first occurrence of a needle: returns the part before the
occurrence and the part after it.  This is the primitive behind the lazy
regex fragments of dashboard.jsx. -/
def splitOnFirst (needle : List Char) : List Char → Option (List Char × List Char)
  | [] => if needle.isEmpty then some ([], []) else none
  | c :: cs =>
    if needle.isPrefixOf (c :: cs) then some ([], (c :: cs).drop needle.length)
    else
      match splitOnFirst needle cs with
      | some (a, b) => some (c :: a, b)
      | none => none

theorem splitOnFirst_eq {needle : List Char} :
    ∀ {h a b : List Char}, splitOnFirst needle h = some (a, b) → h = a ++ needle ++ b := by
  intro h
  induction h with
  | nil =>
    intro a b hs
    simp only [splitOnFirst] at hs
    split at hs
    · next hn =>
      cases hs
      simp [List.isEmpty_iff.mp hn]
    · exact absurd hs (by simp)
  | cons c cs ih =>
    intro a b hs
    simp only [splitOnFirst] at hs
    split at hs
    · next hp =>
      cases hs
      rcases List.isPrefixOf_iff_prefix.mp hp with ⟨t, ht⟩
      simp only [List.nil_append]
      rw [← ht, List.drop_left]
    · next hp =>
      cases hmatch : splitOnFirst needle cs with
      | none => rw [hmatch] at hs; cases hs
      | some ab =>
        rcases ab with ⟨a1, b1⟩
        rw [hmatch] at hs
        cases hs
        simp [ih hmatch]

/-- The opening delimiter of the structured block. -/
def openTagL : List Char := '<' :: "MACROS_JSON>".data

/-- The closing delimiter of the structured block. -/
def closeTagL : List Char := '<' :: "/MACROS_JSON>".data

/-- One pass of the global replacement of the regex
<MACROS_JSON>(lazy anything)</MACROS_JSON> by the empty string
(dashboard.jsx line 515 and line 610), with explicit fuel so that the
function reduces by evaluation.  Scanning resumes after each removed block,
exactly as a JavaScript global regex replace does. -/
def stripMacrosF : Nat → List Char → List Char
  | 0, cs => cs
  | fuel + 1, cs =>
    match splitOnFirst openTagL cs with
    | none => cs
    | some (pre, rest) =>
      match splitOnFirst closeTagL rest with
      | none => cs
      | some (_, post) => pre ++ stripMacrosF fuel post

/-- Removal of every delimited MACROS_JSON block from the raw text. -/
def stripMacros (cs : List Char) : List Char := stripMacrosF (cs.length + 1) cs

/-! ### The anchored preamble-stripping regexes (dashboard.jsx lines 517-527)

Each regex there has the shape: an anchor, a literal piece, lazy gaps up to
further literal pieces (patterns 1-6), or a greedy dot-star up to a literal
piece (patterns 7-8).  Lazy gaps are first-occurrence searches and greedy
dot-star is a last-occurrence search with backtracking, which the helpers
below implement exactly. -/

/-- Resolve a sequence of lazy gaps: for each stop string in turn, skip to
just after its first occurrence; fail if one of them does not occur. -/
def chainStops : List (List Char) → List Char → Option (List Char)
  | [], rest => some rest
  | stop :: more, rest =>
    match splitOnFirst stop rest with
    | none => none
    | some (_, r) => chainStops more r

/-- Apply an anchored pattern: a literal head followed by lazy gaps up to the
given stop strings, matched on the search text hay (which is the original
text cs, lowercased for a case-insensitive regex); on a match, the matched
head of the original text is removed. -/
def stripAnchoredIn (hay pfx : List Char) (stops : List (List Char)) (cs : List Char) : List Char :=
  if pfx.isPrefixOf hay then
    match chainStops stops (hay.drop pfx.length) with
    | some rem => cs.drop (cs.length - rem.length)
    | none => cs
  else cs

/-- Case-insensitive anchored pattern (regex flag i): the pattern literals are
given lowercase and matched against the lowercased text. -/
def stripAnchoredCi (pfx : List Char) (stops : List (List Char)) (cs : List Char) : List Char :=
  stripAnchoredIn (lowerL cs) pfx stops cs

/-- Case-sensitive anchored pattern. -/
def stripAnchoredCs (pfx : List Char) (stops : List (List Char)) (cs : List Char) : List Char :=
  stripAnchoredIn cs pfx stops cs

/-- Two consecutive newlines, the terminator of most preamble patterns. -/
def nl2 : List Char := "\n\n".data

/-- A colon followed by a blank line, the terminator of the introduction
patterns that end in a colon. -/
def colNl2 : List Char := ":\n\n".data

/-- End positions of every occurrence of a literal inside a text (used for the
backtracking of a greedy dot-star before a literal). -/
def occEnds (lit hay : List Char) : List Nat :=
  ((List.range (hay.length + 1)).filter (fun i => lit.isPrefixOf (hay.drop i))).map
    (fun i => i + lit.length)

/-- Try the candidate end positions of the greedy-prefix literal in order; at
each, the given tail matcher decides whether the rest of the regex matches
there and how many further characters it consumes.  The first success removes
the whole match from the original text. -/
def tryOccs (cs hay : List Char) (tailFn : List Char → Option Nat) : List Nat → List Char
  | [] => cs
  | e :: more =>
    match tailFn (hay.drop e) with
    | some m => cs.drop (e + m)
    | none => tryOccs cs hay tailFn more

/-- Anchored case-insensitive pattern of the form: greedy dot-star, a literal,
then a tail; the greedy dot-star prefers the last occurrence of the literal,
backtracking towards earlier ones. -/
def stripGreedy (lit : List Char) (tailFn : List Char → Option Nat) (cs : List Char) : List Char :=
  tryOccs cs (lowerL cs) tailFn (occEnds lit (lowerL cs)).reverse

/-- Index of the last newline of a list, if any. -/
def lastNlIdx : List Char → Option Nat
  | [] => none
  | c :: cs =>
    match lastNlIdx cs with
    | some i => some (i + 1)
    | none => if c == '\n' then some 0 else none

/-- Greatest index k with a newline at k and at k+1, if any. -/
def lastNlPairIdx : List Char → Option Nat
  | [] => none
  | [_] => none
  | c1 :: c2 :: cs =>
    match lastNlPairIdx (c2 :: cs) with
    | some i => some (i + 1)
    | none => if c1 == '\n' && c2 == '\n' then some 0 else none

/-- Tail matcher for pattern 7: whitespace-star then two newlines.  By greedy
backtracking this consumes up to the last adjacent newline pair inside the
maximal whitespace run. -/
def wsTail7 (rest : List Char) : Option Nat :=
  (lastNlPairIdx (rest.takeWhile isWsChar)).map (fun k => k + 2)

/-- Tail matcher for pattern 8: a lazy gap up to the first blank line. -/
def wsTail8 (rest : List Char) : Option Nat :=
  (splitOnFirst nl2 rest).map (fun p => p.1.length + 2)

/-- Pattern 1 (case-sensitive): removes a leading paragraph starting with the
I-would-love-to-help-you-create introduction, up to the first blank line. -/
def stripP1 (cs : List Char) : List Char :=
  stripAnchoredCs ('I' :: apC :: "d love to help you create".data) [nl2] cs

/-- Pattern 2: removes a leading here-is-a ... recipe ... colon paragraph. -/
def stripP2 (cs : List Char) : List Char :=
  stripAnchoredCi ("here".data ++ apC :: "s a".data) ["recipe".data, colNl2] cs

/-- Pattern 3: removes a leading let-me-suggest ... colon paragraph. -/
def stripP3 (cs : List Char) : List Char :=
  stripAnchoredCi "let me suggest".data [colNl2] cs

/-- Pattern 4: removes a leading based-on ... here-is ... colon paragraph. -/
def stripP4 (cs : List Char) : List Char :=
  stripAnchoredCi "based on".data ["here".data ++ apC :: "s".data, colNl2] cs

/-- Pattern 5: removes a leading perfect-I-can-help paragraph. -/
def stripP5 (cs : List Char) : List Char :=
  stripAnchoredCi "perfect! i can help".data [nl2] cs

/-- Pattern 6: removes a leading great-using-your paragraph. -/
def stripP6 (cs : List Char) : List Char :=
  stripAnchoredCi "great! using your".data [nl2] cs

/-- Pattern 7: removes everything up to and including a sentence ending in
"allows you to use up items that may be expiring soon." and the blank line
after it. -/
def stripP7 (cs : List Char) : List Char :=
  stripGreedy "allows you to use up items that may be expiring soon.".data wsTail7 cs

/-- Pattern 8: removes everything up to a sentence containing
"This recipe is versatile" and the first blank line after it. -/
def stripP8 (cs : List Char) : List Char :=
  stripGreedy "this recipe is versatile".data wsTail8 cs

/-- Tail matcher of the global blank-line collapse: after a newline, a run of
whitespace that contains at least two further newlines matches, consuming up
to the last of them (greedy backtracking of the two whitespace-star gaps). -/
def nlMatchTail (cs : List Char) : Option Nat :=
  let run := cs.takeWhile isWsChar
  if 2 ≤ run.count '\n' then (lastNlIdx run).map (fun i => i + 1) else none

/-- Global replacement of three-or-more blank-ish newlines by a single blank
line (the newline whitespace-star newline whitespace-star newline regex of
dashboard.jsx line 530), with fuel so the function evaluates. -/
def collapseNlF : Nat → List Char → List Char
  | 0, cs => cs
  | _ + 1, [] => []
  | fuel + 1, c :: cs =>
    if c == '\n' then
      match nlMatchTail cs with
      | some m => '\n' :: '\n' :: collapseNlF fuel (cs.drop m)
      | none => c :: collapseNlF fuel cs
    else c :: collapseNlF fuel cs

/-- The blank-line collapse at the end of the narrative cleanup. -/
def collapseNl (cs : List Char) : List Char := collapseNlF (cs.length + 1) cs

/-- The cleanup applied after the MACROS_JSON strip and initial trim: the
eight preamble patterns in source order, then the blank-line collapse and a
final trim (dashboard.jsx lines 517-530; duplicated at lines 612-621). -/
def postClean (ct : List Char) : List Char :=
  jsTrim (collapseNl (stripP8 (stripP7 (stripP6 (stripP5 (stripP4 (stripP3 (stripP2 (stripP1 ct)))))))))

/-- The cleaned narrative text: MACROS_JSON blocks removed, trimmed, preamble
patterns stripped, blank lines collapsed, trimmed (dashboard.jsx 515-530). -/
def cleanNarrative (t : List Char) : List Char := postClean (jsTrim (stripMacros t))

/-! ### Title and serving-info extraction (dashboard.jsx lines 532-585) -/

/-- Split a text into its newline-separated lines, modelling split with the
newline separator in JavaScript (an empty text yields one empty line, and a
trailing newline yields a trailing empty line). -/
def splitLines : List Char → List (List Char)
  | [] => [[]]
  | c :: cs =>
    match splitLines cs with
    | [] => [[c]]
    | l :: ls => if c == '\n' then [] :: l :: ls else (c :: l) :: ls

/-- Join lines with newlines, modelling join in JavaScript. -/
def joinLines (ls : List (List Char)) : List Char := List.intercalate ['\n'] ls

/-- The condition under which line 0 is taken as the recipe title
(dashboard.jsx lines 539-543): the line is not blank, its lowercasing does
not start with a section keyword, and it does not contain the five-character
substring of the word step followed by a space anywhere. -/
def titleCond (l0 : List Char) : Bool :=
  !(jsTrim l0).isEmpty &&
  !("ingredients".data.isPrefixOf (lowerL l0)) &&
  !("instructions".data.isPrefixOf (lowerL l0)) &&
  !("directions".data.isPrefixOf (lowerL l0)) &&
  !(containsSub "step ".data (lowerL l0))

/-- The condition under which line 1 is taken as serving/time metadata
(dashboard.jsx lines 557-563), on the trimmed lowercased line. -/
def servingCond (l1 : List Char) : Bool :=
  let s := lowerL (jsTrim l1)
  (containsSub "serving".data s || containsSub "time".data s ||
   containsSub "prep".data s || containsSub "cook".data s ||
   containsSub "total".data s || containsSub "yield".data s) &&
  !("ingredients".data.isPrefixOf s) &&
  !("instructions".data.isPrefixOf s) &&
  !("directions".data.isPrefixOf s)

/-- ASCII decimal digit test. -/
def isDigitC (c : Char) : Bool := 48 ≤ c.toNat && c.toNat ≤ 57

/-- The character class that may follow the digits of a leading numbered-list
indicator: period, closing parenthesis, closing bracket, or whitespace. -/
def numClassC (c : Char) : Bool :=
  c.toNat == 46 || c.toNat == 41 || c.toNat == 93 || isWsChar c

/-- Single removal of a leading numbered-list indicator: one or more digits
followed by one or more indicator-class characters (dashboard.jsx 548/568).
The anchored regex is replaced once, not repeatedly. -/
def stripNumMark (cs : List Char) : List Char :=
  if (cs.takeWhile isDigitC).isEmpty then cs
  else if ((cs.dropWhile isDigitC).takeWhile numClassC).isEmpty then cs
  else (cs.dropWhile isDigitC).dropWhile numClassC

/-- Two asterisks, the bold marker. -/
def dstar : List Char := "**".data

/-- Global replacement of lazily matched double-asterisk pairs by their inner
text (dashboard.jsx 550/570), with fuel so the function evaluates. -/
def stripBoldF : Nat → List Char → List Char
  | 0, cs => cs
  | fuel + 1, cs =>
    match splitOnFirst dstar cs with
    | none => cs
    | some (pre, rest) =>
      match splitOnFirst dstar rest with
      | none => cs
      | some (inner, rest2) => pre ++ inner ++ stripBoldF fuel rest2

/-- Bold-marker removal. -/
def stripBold (cs : List Char) : List Char := stripBoldF (cs.length + 1) cs

/-- The markdown emphasis characters removed from extracted fields:
asterisk, underscore and backtick (dashboard.jsx 552/572). -/
def mdMarkC (c : Char) : Bool := c == '*' || c == '_' || c == btC

/-- Removal of every remaining markdown emphasis character. -/
def removeMd (cs : List Char) : List Char := cs.filter (fun c => !(mdMarkC c))

/-- Field cleanup applied to the raw title and the raw serving line:
numbered-list indicator strip, bold-pair strip, emphasis-character removal
(dashboard.jsx 545-552 and 565-572). -/
def cleanField (raw : List Char) : List Char := removeMd (stripBold (stripNumMark raw))

/-- Split the cleaned narrative into extracted title, extracted serving info
and the remaining recipe body (dashboard.jsx lines 532-585).  An empty
component models the empty string of the source. -/
def extractParts (ct : List Char) : List Char × List Char × List Char :=
  match splitLines ct with
  | [] => ([], [], ct)
  | l0 :: rest =>
    if titleCond l0 then
      let t := cleanField (jsTrim l0)
      match rest with
      | [] => (t, [], jsTrim (joinLines ([] : List (List Char))))
      | l1 :: rest2 =>
        if !(jsTrim l1).isEmpty && servingCond l1 then
          (t, cleanField (jsTrim l1), jsTrim (joinLines rest2))
        else
          (t, [], jsTrim (joinLines (l1 :: rest2)))
    else ([], [], ct)

/-! ### The rendering wrapper (dashboard.jsx lines 512-633)

The external markdown converter (the marked library) is modelled as a
parameter that receives the option record set by marked.setOptions and the
remaining content, and may fail (an exception in the source is a none
result); everything else in renderMarkdown is deterministic text
processing.  The catch branch of the source produces the line-by-line
plain-text fallback from the same cleaned text. -/

/-- The option record passed to marked.setOptions (dashboard.jsx 588-594). -/
structure MarkedOpts where
  breaks : Bool
  gfm : Bool
  sanitize : Bool
  smartLists : Bool
  smartypants : Bool
deriving DecidableEq

/-- The options set before every conversion: all five flags true. -/
def markedOpts : MarkedOpts := ⟨true, true, true, true, true⟩

/-- Result of renderMarkdown: the structured rendering (title, serving info,
body HTML) or the plain-text fallback of the catch branch. -/
inductive RenderResult where
  | rendered : List Char → List Char → List Char → RenderResult
  | fallback : List (List Char) → RenderResult
deriving DecidableEq

/-- No-break space, substituted for blank lines in the fallback rendering. -/
def nbspC : Char := Char.ofNat 160

/-- The line-by-line plain-text fallback (dashboard.jsx 623-631): each line
trimmed, blank lines replaced by a no-break space. -/
def fallbackLines (ct : List Char) : List (List Char) :=
  (splitLines ct).map (fun l => if (jsTrim l).isEmpty then [nbspC] else jsTrim l)

/-- The try branch of renderMarkdown: clean the text, extract title and
serving info, and convert the remaining content with the markdown converter
(only called when the remaining content is non-empty); a converter failure
makes the whole branch fail. -/
def tryRender (md : MarkedOpts → List Char → Option (List Char)) (t : List Char) :
    Option RenderResult :=
  if (extractParts (cleanNarrative t)).2.2.isEmpty then
    some (.rendered (extractParts (cleanNarrative t)).1
      (extractParts (cleanNarrative t)).2.1 [])
  else
    match md markedOpts (extractParts (cleanNarrative t)).2.2 with
    | some h =>
      some (.rendered (extractParts (cleanNarrative t)).1
        (extractParts (cleanNarrative t)).2.1 h)
    | none => none

/-- Selection between the try branch result and the catch fallback. -/
def orFallback (r : Option RenderResult) (lines : List (List Char)) : RenderResult :=
  match r with
  | some x => x
  | none => .fallback lines

/-- The Response Parser of the spec: renderMarkdown of dashboard.jsx.  On
any failure of the try branch the catch branch re-cleans the raw text and
renders it line by line. -/
def renderMarkdown (md : MarkedOpts → List Char → Option (List Char)) (t : List Char) :
    RenderResult :=
  orFallback (tryRender md t) (fallbackLines (cleanNarrative t))

/-- renderMarkdown with the module-global marked option state made explicit:
the call overwrites the global options with markedOpts via marked.setOptions
(dashboard.jsx 588-594) and its result does not read the prior state. -/
def renderMarkdownS (md : MarkedOpts → List Char → Option (List Char))
    (_g : MarkedOpts) (t : List Char) : MarkedOpts × RenderResult :=
  (markedOpts, renderMarkdown md t)

/-! ### Structured macro extraction

Modelled from the spec: the backend that performs Step 1 of the Response
Parser (locating the delimited block and strictly JSON-decoding its
contents, section 4.5 and section 6 of the spec) is a Flask service that is
not under src/; only its caller (the dashboard) is.  The JSON decoder below
follows the spec words: strict decoding of a JSON value (objects, strings,
integer-valued numbers, booleans, null, arrays; string escapes are not
modelled), reading the four mandatory macro numbers nested under the
macros-per-serving key, with any additional keys ignored. -/

/-- Colon character. -/
def clC : Char := ':'

/-- Comma character. -/
def cmC : Char := ','

/-- Left square bracket. -/
def lkC : Char := '['

/-- Right square bracket. -/
def rkC : Char := ']'

/-- JSON inter-token whitespace. -/
def isJsonWs (c : Char) : Bool := c == ' ' || c == '\t' || c == '\n' || c == '\r'

/-- Skip JSON whitespace. -/
def skipWs (cs : List Char) : List Char := cs.dropWhile isJsonWs

/-- JSON values, with integer-valued numbers. -/
inductive Json where
  | num : Nat → Json
  | str : List Char → Json
  | bool : Bool → Json
  | null : Json
  | arr : List Json → Json
  | obj : List (List Char × Json) → Json

/-- Body of a JSON string after its opening quote: everything up to the
closing quote. -/
def parseStrBody : List Char → Option (List Char × List Char)
  | [] => none
  | c :: cs =>
    if c == qtC then some ([], cs)
    else
      match parseStrBody cs with
      | none => none
      | some (s, r) => some (c :: s, r)

/-- Numeric value of a digit list. -/
def digitsVal (ds : List Char) : Nat := ds.foldl (fun a c => a * 10 + (c.toNat - 48)) 0

/-- A JSON natural-number token: one or more digits. -/
def parseNatTok (cs : List Char) : Option (Nat × List Char) :=
  if (cs.takeWhile isDigitC).isEmpty then none
  else some (digitsVal (cs.takeWhile isDigitC), cs.dropWhile isDigitC)

/-- Literal for the JSON true token. -/
def trueLit : List Char := "true".data

/-- Literal for the JSON false token. -/
def falseLit : List Char := "false".data

/-- Literal for the JSON null token. -/
def nullLit : List Char := "null".data

mutual

/-- A JSON value, by recursive descent with fuel (every recursive call
happens after at least one character was consumed, so fuel one past the
input length always suffices). -/
def parseVal : Nat → List Char → Option (Json × List Char)
  | 0, _ => none
  | f + 1, cs =>
    match skipWs cs with
    | [] => none
    | c :: rest =>
      if isDigitC c then parseNatTok (c :: rest) |>.map (fun (n, r) => (.num n, r))
      else if c == qtC then
        match parseStrBody rest with
        | some (s, r) => some (.str s, r)
        | none => none
      else if c == lbC then
        match skipWs rest with
        | c2 :: r2 =>
          if c2 == rbC then some (.obj [], r2)
          else
            match parseMembers f rest with
            | some (ms, r) => some (.obj ms, r)
            | none => none
        | [] => none
      else if c == lkC then
        match skipWs rest with
        | c2 :: r2 =>
          if c2 == rkC then some (.arr [], r2)
          else
            match parseElems f rest with
            | some (vs, r) => some (.arr vs, r)
            | none => none
        | [] => none
      else if trueLit.isPrefixOf (c :: rest) then some (.bool true, (c :: rest).drop 4)
      else if falseLit.isPrefixOf (c :: rest) then some (.bool false, (c :: rest).drop 5)
      else if nullLit.isPrefixOf (c :: rest) then some (.null, (c :: rest).drop 4)
      else none

/-- One or more members of a JSON object, up to and including the closing
brace. -/
def parseMembers : Nat → List Char → Option (List (List Char × Json) × List Char)
  | 0, _ => none
  | f + 1, cs =>
    match skipWs cs with
    | [] => none
    | c :: r1 =>
      if c == qtC then
        match parseStrBody r1 with
        | none => none
        | some (k, r2) =>
          match skipWs r2 with
          | [] => none
          | c2 :: r3 =>
            if c2 == clC then
              match parseVal f r3 with
              | none => none
              | some (v, r4) =>
                match skipWs r4 with
                | [] => none
                | c3 :: r5 =>
                  if c3 == cmC then
                    match parseMembers f r5 with
                    | some (ms, r6) => some ((k, v) :: ms, r6)
                    | none => none
                  else if c3 == rbC then some ([(k, v)], r5)
                  else none
            else none
      else none

/-- One or more elements of a JSON array, up to and including the closing
bracket. -/
def parseElems : Nat → List Char → Option (List Json × List Char)
  | 0, _ => none
  | f + 1, cs =>
    match parseVal f cs with
    | none => none
    | some (v, r) =>
      match skipWs r with
      | [] => none
      | c :: r2 =>
        if c == cmC then
          match parseElems f r2 with
          | some (vs, r3) => some (v :: vs, r3)
          | none => none
        else if c == rkC then some ([v], r2)
        else none

end

/-- The per-serving macro record of the spec data model (all four numbers
are non-negative by construction, as the spec requires). -/
structure Macros where
  calories : Nat
  protein_g : Nat
  carbs_g : Nat
  fat_g : Nat
deriving DecidableEq

/-- Key of the nested macro object in the wire format. -/
def mpsK : List Char := "macros_per_serving".data

/-- Key of the calories field. -/
def calK : List Char := "calories".data

/-- Key of the protein field. -/
def proK : List Char := "protein_g".data

/-- Key of the carbs field. -/
def carK : List Char := "carbs_g".data

/-- Key of the fat field. -/
def fatK : List Char := "fat_g".data

/-- First value bound to a key in a decoded JSON object. -/
def lookupKey (k : List Char) : List (List Char × Json) → Option Json
  | [] => none
  | (k1, v) :: ms => if k1 == k then some v else lookupKey k ms

/-- Modelled from the spec: read the four mandatory numeric macro fields
nested under the macros-per-serving key of a decoded JSON object, ignoring
any additional keys. -/
def jsonToMacros : Json → Option Macros
  | .obj ms =>
    match lookupKey mpsK ms with
    | some (.obj inner) =>
      match lookupKey calK inner, lookupKey proK inner,
            lookupKey carK inner, lookupKey fatK inner with
      | some (.num c), some (.num p), some (.num cb), some (.num f) =>
        some ⟨c, p, cb, f⟩
      | _, _, _, _ => none
    | _ => none
  | _ => none

/-- Modelled from the spec: strict JSON decoding of the block contents into
the macro record; the whole contents must be one JSON value followed only by
whitespace. -/
def decodeMacros (cs : List Char) : Option Macros :=
  match parseVal (cs.length + 1) cs with
  | some (v, r) => if (skipWs r).isEmpty then jsonToMacros v else none
  | none => none

/-- The contents of the first delimited MACROS_JSON block of a text, if
any. -/
def extractBlock (cs : List Char) : Option (List Char) :=
  match splitOnFirst openTagL cs with
  | none => none
  | some (_, rest) => (splitOnFirst closeTagL rest).map (fun p => p.1)

/-- The structured-plus-narrative result of the Response Parser. -/
structure ParsedResponse where
  macros : Option Macros
  narrative : List Char
deriving DecidableEq

/-- Modelled from the spec: Step 1 of the Response Parser, section 4.5 -
locate the delimited block, strictly decode it; on success or failure the
caller still receives the narrative with the block stripped (the stripping
itself is the src/ regex of dashboard.jsx line 515). -/
def parseResponse (cs : List Char) : ParsedResponse :=
  { macros := (extractBlock cs).bind decodeMacros
    narrative := stripMacros cs }

/-- Decimal digit characters as an explicit table, easing evaluation in
proofs. -/
def digitChar (n : Nat) : Char :=
  if n = 0 then '0' else if n = 1 then '1' else if n = 2 then '2'
  else if n = 3 then '3' else if n = 4 then '4' else if n = 5 then '5'
  else if n = 6 then '6' else if n = 7 then '7' else if n = 8 then '8' else '9'

/-- The digits of a natural number, most significant first, with fuel (fuel
one past the number always suffices). -/
def natDigitsF : Nat → Nat → List Char
  | 0, _ => []
  | f + 1, n =>
    if n < 10 then [digitChar n]
    else natDigitsF f (n / 10) ++ [digitChar (n % 10)]

/-- Decimal digit list of a natural number. -/
def natDigits (n : Nat) : List Char := natDigitsF (n + 1) n

/-- The canonical serialization of a macro record in the wire format of
section 6 of the spec (no whitespace, fields in the documented order). -/
def serializeMacros (m : Macros) : List Char :=
  lbC :: qtC ::
    (mpsK ++ qtC :: clC :: lbC :: qtC ::
    (calK ++ qtC :: clC ::
    (natDigits m.calories ++ cmC :: qtC ::
    (proK ++ qtC :: clC ::
    (natDigits m.protein_g ++ cmC :: qtC ::
    (carK ++ qtC :: clC ::
    (natDigits m.carbs_g ++ cmC :: qtC ::
    (fatK ++ qtC :: clC ::
    (natDigits m.fat_g ++ [rbC, rbC])))))))))

/-! ### Recommendation orchestration

Modelled from the spec: the Recommendation Orchestrator and Context Builder
(sections 4.3 and 4.6) live in the Flask backend, which is not under src/;
src/ only contains their caller (handleGenerateRecipe and the
recipe-generate button of dashboard.jsx). -/

/-- Modelled from the spec: the error kinds of section 7. -/
inductive ErrKind where
  | NotFound
  | DataShape
  | Timeout
  | Unavailable
  | Rejected
  | EmptyInventory
  | Internal
deriving DecidableEq

/-- Modelled from the spec: an inventory entry as read by the Context
Builder (section 4.3): food name, category, acquisition time and optional
explicit expiry time, in days. -/
structure InvEntry where
  name : List Char
  category : List Char
  acquiredAt : Int
  expiryAt : Option Int

/-- Modelled from the spec: the Expiration Policy (section 4.1) - a category
table with a conservative 7-day default for categories it does not know. -/
def policyDays (table : List Char → Option Nat) (cat : List Char) : Nat :=
  (table cat).getD 7

/-- Modelled from the spec: days remaining of an entry at the given clock;
an explicit expiry always wins over the policy table (sections 4.1, 4.3). -/
def daysRemaining (table : List Char → Option Nat) (now : Int) (e : InvEntry) : Int :=
  match e.expiryAt with
  | some t => t - now
  | none => e.acquiredAt + (policyDays table e.category : Int) - now

/-- Ordering of eligible entries: soonest-expiring first, name tie-break. -/
def entryLE (table : List Char → Option Nat) (now : Int) (a b : InvEntry) : Bool :=
  daysRemaining table now a < daysRemaining table now b ||
  (daysRemaining table now a == daysRemaining table now b &&
    String.mk a.name ≤ String.mk b.name)

/-- Modelled from the spec: the eligible ranked list of the Context Builder
(section 4.3): non-expired entries, sorted ascending by days remaining with
a deterministic name tie-break, capped at 25 items. -/
def buildEligible (table : List Char → Option Nat) (now : Int)
    (entries : List InvEntry) : List InvEntry :=
  (((entries.filter (fun e => 0 ≤ daysRemaining table now e)).mergeSort
    (entryLE table now)).take 25)

/-- Modelled from the spec: the Recommendation Orchestrator (section 4.6)
composing Context Builder, Generation Client and Response Parser.  The
Generation Client is a test double counting its calls; with zero eligible
items the orchestrator fails fast with EmptyInventory and the client is not
invoked. -/
def recommend (table : List Char → Option Nat) (now : Int)
    (entries : List InvEntry) (pref : List Char)
    (client : List InvEntry → List Char → List Char) (calls : Nat) :
    Except ErrKind ParsedResponse × Nat :=
  let elig := buildEligible table now entries
  if elig.isEmpty then (.error .EmptyInventory, calls)
  else (.ok (parseResponse (client elig pref)), calls + 1)

/-- The frontend gating of the recipe-generate button (dashboard.jsx line
960): submitting is disabled while a generation runs or when the fridge
holds no items. -/
def recipeGenerateDisabled (generating : Bool) (fridgeItems : List InvEntry) : Bool :=
  generating || fridgeItems.length == 0

/-! ### Claim-wording predicates

For the refinement-style claims these state the claim text itself, to be
compared with the behaviour of the definitions above that were translated
from the source. -/

/-- A leading numbered-list indicator: one or more digits followed by at
least one indicator-class character. -/
def startsNumMark (l : List Char) : Bool :=
  !(l.takeWhile isDigitC).isEmpty &&
  !((l.dropWhile isDigitC).takeWhile numClassC).isEmpty

/-- Wording of claim C4: the first line does not look like a section header,
that is, it does not start with the section keywords and does not start with
a step marker (a step keyword or a numbered step indicator). -/
def specTitleHeaderFree (l : List Char) : Bool :=
  !("ingredients".data.isPrefixOf (lowerL l)) &&
  !("instructions".data.isPrefixOf (lowerL l)) &&
  !("directions".data.isPrefixOf (lowerL l)) &&
  !("step".data.isPrefixOf (lowerL l)) &&
  !(startsNumMark l)

/-! ### Lemmas about occurrence search and block stripping -/

theorem isPrefixOf_cons_false {c d : Char} {n t : List Char} (h : c ≠ d) :
    (c :: n).isPrefixOf (d :: t) = false := by
  simp [List.isPrefixOf, h]

theorem splitOnFirst_no_marker {n' : List Char} :
    ∀ {h : List Char}, (∀ c ∈ h, c ≠ '<') → splitOnFirst ('<' :: n') h = none := by
  intro h
  induction h with
  | nil => intro _; simp [splitOnFirst]
  | cons c t ih =>
    intro hh
    have hc : '<' ≠ c := fun he => (hh c (by simp)) he.symm
    rw [splitOnFirst, isPrefixOf_cons_false hc]
    simp only [Bool.false_eq_true, if_false]
    rw [ih (fun x hx => hh x (by simp [hx]))]

theorem splitOnFirst_marker {n' b : List Char} :
    ∀ {a : List Char}, (∀ c ∈ a, c ≠ '<') →
      splitOnFirst ('<' :: n') (a ++ ('<' :: n') ++ b) = some (a, b) := by
  intro a
  induction a with
  | nil =>
    intro _
    simp only [List.nil_append, List.cons_append]
    rw [splitOnFirst]
    have hp : ('<' :: n').isPrefixOf ('<' :: (n' ++ b)) = true := by
      simp [List.isPrefixOf_iff_prefix, List.cons_prefix_cons]
    rw [hp]
    simp [List.drop_left]
  | cons c t ih =>
    intro ha
    have hc : '<' ≠ c := fun he => (ha c (by simp)) he.symm
    simp only [List.cons_append]
    rw [splitOnFirst, isPrefixOf_cons_false hc]
    simp only [Bool.false_eq_true, if_false]
    have hrec := ih (fun x hx => ha x (by simp [hx]))
    simp only [List.cons_append] at hrec
    rw [hrec]

theorem stripMacrosF_no_lt {h : List Char} (hh : ∀ c ∈ h, c ≠ '<') :
    ∀ f, stripMacrosF f h = h := by
  intro f
  cases f with
  | zero => rfl
  | succ f =>
    rw [stripMacrosF, openTagL, splitOnFirst_no_marker hh]

theorem splitOnFirst_open_block {a i b : List Char} (ha : ∀ c ∈ a, c ≠ '<') :
    splitOnFirst openTagL (a ++ openTagL ++ i ++ closeTagL ++ b) =
      some (a, i ++ closeTagL ++ b) := by
  rw [openTagL]
  have h : splitOnFirst ('<' :: "MACROS_JSON>".data)
      (a ++ ('<' :: "MACROS_JSON>".data) ++ (i ++ closeTagL ++ b)) =
        some (a, i ++ closeTagL ++ b) := splitOnFirst_marker ha
  rw [← h]
  congr 1
  simp [List.append_assoc, closeTagL, openTagL]

theorem splitOnFirst_close_block {i b : List Char} (hi : ∀ c ∈ i, c ≠ '<') :
    splitOnFirst closeTagL (i ++ closeTagL ++ b) = some (i, b) := by
  rw [closeTagL]
  exact splitOnFirst_marker hi

theorem stripMacros_block {a i b : List Char} (ha : ∀ c ∈ a, c ≠ '<')
    (hi : ∀ c ∈ i, c ≠ '<') (hb : ∀ c ∈ b, c ≠ '<') :
    stripMacros (a ++ openTagL ++ i ++ closeTagL ++ b) = a ++ b := by
  rw [stripMacros, stripMacrosF]
  simp only [splitOnFirst_open_block ha, splitOnFirst_close_block hi,
    stripMacrosF_no_lt hb]

theorem stripMacros_no_lt {h : List Char} (hh : ∀ c ∈ h, c ≠ '<') :
    stripMacros h = h :=
  stripMacrosF_no_lt hh _

theorem extractBlock_block {a i b : List Char} (ha : ∀ c ∈ a, c ≠ '<')
    (hi : ∀ c ∈ i, c ≠ '<') :
    extractBlock (a ++ openTagL ++ i ++ closeTagL ++ b) = some i := by
  rw [extractBlock]
  simp only [splitOnFirst_open_block ha, splitOnFirst_close_block hi, Option.map_some']

/-! ### Whitespace, digit and digit-string lemmas -/

theorem jsTrim_all_ws {l : List Char} (h : ∀ c ∈ l, isWsChar c = true) : jsTrim l = [] := by
  have h1 : l.dropWhile isWsChar = [] := List.dropWhile_eq_nil_iff.mpr h
  simp [jsTrim, h1]

theorem isWsChar_ne_lt {c : Char} (h : isWsChar c = true) : c ≠ '<' := by
  intro he
  rw [he] at h
  exact absurd h (by decide)

theorem isDigitC_beq_false {c d : Char} (h : isDigitC c = true) (hd : isDigitC d = false) :
    (c == d) = false := by
  rw [beq_eq_false_iff_ne]
  intro he
  subst he
  rw [h] at hd
  cases hd

theorem isDigitC_ne_lt {c : Char} (h : isDigitC c = true) : c ≠ '<' := by
  intro he
  rw [he] at h
  exact absurd h (by decide)

theorem isDigitC_not_jsonWs {c : Char} (h : isDigitC c = true) : isJsonWs c = false := by
  simp only [isJsonWs]
  rw [isDigitC_beq_false h (by decide), isDigitC_beq_false h (by decide),
    isDigitC_beq_false h (by decide), isDigitC_beq_false h (by decide)]
  rfl

theorem takeWhile_append_stop {p : Char → Bool} {c : Char} {r : List Char} :
    ∀ {d : List Char}, (∀ x ∈ d, p x = true) → p c = false →
      (d ++ c :: r).takeWhile p = d := by
  intro d
  induction d with
  | nil => intro _ hc; simp [List.takeWhile_cons, hc]
  | cons a t ih =>
    intro hd hc
    have ha : p a = true := hd a (by simp)
    simp [List.takeWhile_cons, ha, ih (fun x hx => hd x (by simp [hx])) hc]

theorem dropWhile_append_stop {p : Char → Bool} {c : Char} {r : List Char} :
    ∀ {d : List Char}, (∀ x ∈ d, p x = true) → p c = false →
      (d ++ c :: r).dropWhile p = c :: r := by
  intro d
  induction d with
  | nil => intro _ hc; simp [List.dropWhile_cons, hc]
  | cons a t ih =>
    intro hd hc
    have ha : p a = true := hd a (by simp)
    simp [List.dropWhile_cons, ha, ih (fun x hx => hd x (by simp [hx])) hc]

theorem digitChar_isDigit {n : Nat} (h : n < 10) : isDigitC (digitChar n) = true := by
  interval_cases n <;> decide

theorem digitChar_toNat {n : Nat} (h : n < 10) : (digitChar n).toNat - 48 = n := by
  interval_cases n <;> decide

theorem natDigitsF_digits : ∀ {f n : Nat}, n < f → ∀ c ∈ natDigitsF f n, isDigitC c = true := by
  intro f
  induction f with
  | zero => intro n h; omega
  | succ f ih =>
    intro n hn c hc
    rw [natDigitsF] at hc
    by_cases h10 : n < 10
    · simp only [h10, if_true, List.mem_singleton] at hc
      subst hc
      exact digitChar_isDigit h10
    · simp only [h10, if_false, List.mem_append, List.mem_singleton] at hc
      rcases hc with hc | hc
      · have hdiv : n / 10 < f := by
          have h1 : n / 10 < n := Nat.div_lt_self (by omega) (by omega)
          omega
        exact ih hdiv c hc
      · subst hc
        exact digitChar_isDigit (Nat.mod_lt _ (by omega))

theorem natDigitsF_ne_nil : ∀ {f n : Nat}, n < f → natDigitsF f n ≠ [] := by
  intro f n h
  cases f with
  | zero => omega
  | succ f =>
    rw [natDigitsF]
    by_cases h10 : n < 10 <;> simp [h10]

theorem natDigits_digits {n : Nat} : ∀ c ∈ natDigits n, isDigitC c = true :=
  natDigitsF_digits (Nat.lt_succ_self n)

theorem natDigits_ne_nil (n : Nat) : natDigits n ≠ [] :=
  natDigitsF_ne_nil (Nat.lt_succ_self n)

theorem foldl_natDigitsF : ∀ {f n : Nat}, n < f → ∀ a : Nat,
    List.foldl (fun a c => a * 10 + (c.toNat - 48)) a (natDigitsF f n) =
      a * 10 ^ (natDigitsF f n).length + n := by
  intro f
  induction f with
  | zero => intro n h; omega
  | succ f ih =>
    intro n hn a
    rw [natDigitsF]
    by_cases h10 : n < 10
    · simp [h10, List.foldl, digitChar_toNat h10]
    · have hdiv : n / 10 < f := by
        have h1 : n / 10 < n := Nat.div_lt_self (by omega) (by omega)
        omega
      simp only [h10, if_false]
      rw [List.foldl_append, ih hdiv a]
      simp only [List.foldl, List.length_append, List.length_singleton]
      rw [digitChar_toNat (Nat.mod_lt _ (by omega)), pow_succ]
      ring_nf
      omega

theorem digitsVal_natDigits (n : Nat) : digitsVal (natDigits n) = n := by
  have h := foldl_natDigitsF (Nat.lt_succ_self n) 0
  simpa [digitsVal, natDigits] using h

/-! ### Parser step lemmas for the canonical wire format -/

theorem skipWs_cons {c : Char} {cs : List Char} (h : isJsonWs c = false) :
    skipWs (c :: cs) = c :: cs := by
  simp [skipWs, List.dropWhile_cons, h]

theorem parseStrBody_key {r : List Char} :
    ∀ {k : List Char}, (∀ c ∈ k, (c == qtC) = false) →
      parseStrBody (k ++ qtC :: r) = some (k, r) := by
  intro k
  induction k with
  | nil => intro _; simp [parseStrBody]
  | cons c t ih =>
    intro hk
    have hc := hk c (by simp)
    simp [parseStrBody, hc, ih (fun x hx => hk x (by simp [hx]))]

theorem parseNatTok_digits {n : Nat} {c : Char} {r : List Char} (hc : isDigitC c = false) :
    parseNatTok (natDigits n ++ c :: r) = some (n, c :: r) := by
  have h1 := takeWhile_append_stop (p := isDigitC) (r := r) (natDigits_digits (n := n)) hc
  have h2 := dropWhile_append_stop (p := isDigitC) (r := r) (natDigits_digits (n := n)) hc
  simp [parseNatTok, h1, h2, List.isEmpty_iff, natDigits_ne_nil n, digitsVal_natDigits]

theorem parseVal_num {f n : Nat} {c : Char} {r : List Char} (hc : isDigitC c = false) :
    parseVal (f + 1) (natDigits n ++ c :: r) = some (.num n, c :: r) := by
  obtain ⟨d0, dt, hd⟩ := List.exists_cons_of_ne_nil (natDigits_ne_nil n)
  have hd0 : isDigitC d0 = true := natDigits_digits d0 (by rw [hd]; simp)
  have hsk : skipWs (natDigits n ++ c :: r) = d0 :: (dt ++ c :: r) := by
    rw [hd, List.cons_append, skipWs_cons (isDigitC_not_jsonWs hd0)]
  have htok : parseNatTok (d0 :: (dt ++ c :: r)) = some (n, c :: r) := by
    rw [← List.cons_append, ← hd, parseNatTok_digits hc]
  rw [parseVal]
  simp [hsk, hd0, htok]

theorem parseMembers_comma {f : Nat} {k : List Char} {v : Json}
    {ms : List (List Char × Json)} {cs cs1 r : List Char}
    (hk : ∀ c ∈ k, (c == qtC) = false)
    (hv : parseVal f cs = some (v, cmC :: cs1))
    (hm : parseMembers f cs1 = some (ms, r)) :
    parseMembers (f + 1) (qtC :: (k ++ qtC :: clC :: cs)) = some ((k, v) :: ms, r) := by
  rw [parseMembers]
  simp [skipWs_cons (show isJsonWs qtC = false by decide), parseStrBody_key hk,
    skipWs_cons (show isJsonWs clC = false by decide), hv,
    skipWs_cons (show isJsonWs cmC = false by decide), hm]

theorem parseMembers_last {f : Nat} {k : List Char} {v : Json} {cs cs1 : List Char}
    (hk : ∀ c ∈ k, (c == qtC) = false)
    (hv : parseVal f cs = some (v, rbC :: cs1)) :
    parseMembers (f + 1) (qtC :: (k ++ qtC :: clC :: cs)) = some ([(k, v)], cs1) := by
  rw [parseMembers]
  simp [skipWs_cons (show isJsonWs qtC = false by decide), parseStrBody_key hk,
    skipWs_cons (show isJsonWs clC = false by decide), hv,
    skipWs_cons (show isJsonWs rbC = false by decide),
    show (rbC == cmC) = false from by decide]

theorem parseVal_objOf {f : Nat} {cs t r : List Char} {ms : List (List Char × Json)}
    (hq : skipWs cs = qtC :: t) (hm : parseMembers f cs = some (ms, r)) :
    parseVal (f + 1) (lbC :: cs) = some (.obj ms, r) := by
  rw [parseVal]
  simp [skipWs_cons (show isJsonWs lbC = false by decide), hq, hm,
    show isDigitC lbC = false from by decide,
    show (lbC == qtC) = false from by decide,
    show (qtC == rbC) = false from by decide]

theorem decodeMacros_serialize (m : Macros) :
    decodeMacros (serializeMacros m) = some m := by
  have hkm : ∀ c ∈ mpsK, (c == qtC) = false := by decide
  have hkc : ∀ c ∈ calK, (c == qtC) = false := by decide
  have hkp : ∀ c ∈ proK, (c == qtC) = false := by decide
  have hkb : ∀ c ∈ carK, (c == qtC) = false := by decide
  have hkf : ∀ c ∈ fatK, (c == qtC) = false := by decide
  obtain ⟨g, hg⟩ : ∃ g, (serializeMacros m).length + 1 = g + 8 := by
    refine ⟨(serializeMacros m).length - 7, ?_⟩
    have hmk : mpsK.length = 18 := by decide
    have h7 : 7 ≤ (serializeMacros m).length := by
      simp [serializeMacros, List.length_append, hmk]
      omega
    omega
  set D4 : List Char := natDigits m.fat_g ++ [rbC, rbC] with hD4
  set S4 : List Char := qtC :: (fatK ++ qtC :: clC :: D4) with hS4
  set D3 : List Char := natDigits m.carbs_g ++ cmC :: S4 with hD3
  set S3 : List Char := qtC :: (carK ++ qtC :: clC :: D3) with hS3
  set D2 : List Char := natDigits m.protein_g ++ cmC :: S3 with hD2
  set S2 : List Char := qtC :: (proK ++ qtC :: clC :: D2) with hS2
  set D1 : List Char := natDigits m.calories ++ cmC :: S2 with hD1
  set S1 : List Char := qtC :: (calK ++ qtC :: clC :: D1) with hS1
  set B1 : List Char := lbC :: S1 with hB1
  set S0 : List Char := qtC :: (mpsK ++ qtC :: clC :: B1) with hS0
  have A4 : parseVal (g + 1) D4 = some (.num m.fat_g, [rbC, rbC]) := by
    rw [hD4]; exact parseVal_num (by decide)
  have M4 : parseMembers (g + 2) S4 = some ([(fatK, .num m.fat_g)], [rbC]) := by
    rw [hS4]; exact parseMembers_last hkf A4
  have A3 : parseVal (g + 2) D3 = some (.num m.carbs_g, cmC :: S4) := by
    rw [hD3]; exact parseVal_num (by decide)
  have M3 : parseMembers (g + 3) S3 =
      some ([(carK, .num m.carbs_g), (fatK, .num m.fat_g)], [rbC]) := by
    rw [hS3]; exact parseMembers_comma hkb A3 M4
  have A2 : parseVal (g + 3) D2 = some (.num m.protein_g, cmC :: S3) := by
    rw [hD2]; exact parseVal_num (by decide)
  have M2 : parseMembers (g + 4) S2 =
      some ([(proK, .num m.protein_g), (carK, .num m.carbs_g),
        (fatK, .num m.fat_g)], [rbC]) := by
    rw [hS2]; exact parseMembers_comma hkp A2 M3
  have A1 : parseVal (g + 4) D1 = some (.num m.calories, cmC :: S2) := by
    rw [hD1]; exact parseVal_num (by decide)
  have M1 : parseMembers (g + 5) S1 =
      some ([(calK, .num m.calories), (proK, .num m.protein_g),
        (carK, .num m.carbs_g), (fatK, .num m.fat_g)], [rbC]) := by
    rw [hS1]; exact parseMembers_comma hkc A1 M2
  have VI : parseVal (g + 6) B1 =
      some (.obj [(calK, .num m.calories), (proK, .num m.protein_g),
        (carK, .num m.carbs_g), (fatK, .num m.fat_g)], [rbC]) := by
    rw [hB1]
    have hq : skipWs S1 = qtC :: (calK ++ qtC :: clC :: D1) := by
      rw [hS1]; exact skipWs_cons (by decide)
    exact parseVal_objOf hq M1
  have MO : parseMembers (g + 7) S0 =
      some ([(mpsK, .obj [(calK, .num m.calories), (proK, .num m.protein_g),
        (carK, .num m.carbs_g), (fatK, .num m.fat_g)])], []) := by
    rw [hS0]; exact parseMembers_last hkm VI
  have VO : parseVal (g + 8) (lbC :: S0) =
      some (.obj [(mpsK, .obj [(calK, .num m.calories), (proK, .num m.protein_g),
        (carK, .num m.carbs_g), (fatK, .num m.fat_g)])], []) := by
    have hq0 : skipWs S0 = qtC :: (mpsK ++ qtC :: clC :: B1) := by
      rw [hS0]; exact skipWs_cons (by decide)
    exact parseVal_objOf hq0 MO
  have hser : serializeMacros m = lbC :: S0 := by
    rw [hS0, hB1, hS1, hD1, hS2, hD2, hS3, hD3, hS4, hD4]
    rfl
  rw [decodeMacros, hg, hser, VO]
  simp [skipWs, jsonToMacros, lookupKey,
    show (calK == proK) = false from by decide,
    show (calK == carK) = false from by decide,
    show (calK == fatK) = false from by decide,
    show (proK == carK) = false from by decide,
    show (proK == fatK) = false from by decide,
    show (carK == fatK) = false from by decide]

/-! ### Helpers for the claim theorems -/

theorem no_lt_append {a b : List Char} (ha : ∀ c ∈ a, c ≠ '<') (hb : ∀ c ∈ b, c ≠ '<') :
    ∀ c ∈ a ++ b, c ≠ '<' := by
  intro c hc
  rcases List.mem_append.mp hc with h | h
  exacts [ha c h, hb c h]

theorem no_lt_cons {c0 : Char} {b : List Char} (h0 : c0 ≠ '<') (hb : ∀ c ∈ b, c ≠ '<') :
    ∀ c ∈ c0 :: b, c ≠ '<' := by
  intro c hc
  rcases List.mem_cons.mp hc with h | h
  · rw [h]; exact h0
  · exact hb c h

theorem natDigits_no_lt {n : Nat} : ∀ c ∈ natDigits n, c ≠ '<' :=
  fun c hc => isDigitC_ne_lt (natDigits_digits c hc)

theorem serialize_no_lt (m : Macros) : ∀ c ∈ serializeMacros m, c ≠ '<' := by
  rw [serializeMacros]
  refine no_lt_cons (by decide) (no_lt_cons (by decide) (no_lt_append (by decide) ?_))
  refine no_lt_cons (by decide) (no_lt_cons (by decide) (no_lt_cons (by decide)
    (no_lt_cons (by decide) (no_lt_append (by decide) ?_))))
  refine no_lt_cons (by decide) (no_lt_cons (by decide)
    (no_lt_append natDigits_no_lt ?_))
  refine no_lt_cons (by decide) (no_lt_cons (by decide) (no_lt_append (by decide) ?_))
  refine no_lt_cons (by decide) (no_lt_cons (by decide)
    (no_lt_append natDigits_no_lt ?_))
  refine no_lt_cons (by decide) (no_lt_cons (by decide) (no_lt_append (by decide) ?_))
  refine no_lt_cons (by decide) (no_lt_cons (by decide)
    (no_lt_append natDigits_no_lt ?_))
  refine no_lt_cons (by decide) (no_lt_cons (by decide) (no_lt_append (by decide) ?_))
  refine no_lt_cons (by decide) (no_lt_cons (by decide)
    (no_lt_append natDigits_no_lt ?_))
  decide

theorem cleanNarrative_block {pre post : List Char} (m : Macros)
    (hpre : ∀ c ∈ pre, c ≠ '<') (hpost : ∀ c ∈ post, c ≠ '<') :
    cleanNarrative (pre ++ openTagL ++ serializeMacros m ++ closeTagL ++ post) =
      cleanNarrative (pre ++ post) := by
  rw [cleanNarrative, cleanNarrative,
    stripMacros_block hpre (serialize_no_lt m) hpost,
    stripMacros_no_lt (no_lt_append hpre hpost)]

theorem renderMarkdown_of_clean_nil {md : MarkedOpts → List Char → Option (List Char)}
    {t : List Char} (h : cleanNarrative t = []) :
    renderMarkdown md t = .rendered [] [] [] := by
  have hparts : extractParts ([] : List Char) = ([], [], []) := by decide
  have ht : tryRender md t = some (.rendered [] [] []) := by
    rw [tryRender, h, hparts]
    simp
  rw [renderMarkdown, ht]
  rfl

theorem removeMd_no_md {l : List Char} : ∀ c ∈ removeMd l, mdMarkC c = false := by
  intro c hc
  have h := List.mem_filter.mp hc
  simpa using h.2

theorem cleanField_no_md {l : List Char} : ∀ c ∈ cleanField l, mdMarkC c = false :=
  removeMd_no_md

theorem extractParts_fst_no_md (ct : List Char) :
    ∀ c ∈ (extractParts ct).1, mdMarkC c = false := by
  rw [extractParts]
  cases hsp : splitLines ct with
  | nil => simp
  | cons l0 rest =>
    cases h0 : titleCond l0 with
    | false => simp [h0]
    | true =>
      cases rest with
      | nil =>
        simp only [h0, if_true]
        exact cleanField_no_md
      | cons l1 r2 =>
        cases h1 : (!(jsTrim l1).isEmpty && servingCond l1) with
        | true =>
          simp only [h0, h1, if_true]
          exact cleanField_no_md
        | false =>
          simp only [h0, h1, Bool.false_eq_true, if_true, if_false]
          exact cleanField_no_md

theorem extractParts_snd_no_md (ct : List Char) :
    ∀ c ∈ (extractParts ct).2.1, mdMarkC c = false := by
  rw [extractParts]
  cases hsp : splitLines ct with
  | nil => simp
  | cons l0 rest =>
    cases h0 : titleCond l0 with
    | false => simp [h0]
    | true =>
      cases rest with
      | nil => simp [h0]
      | cons l1 r2 =>
        cases h1 : (!(jsTrim l1).isEmpty && servingCond l1) with
        | true =>
          simp only [h0, h1, if_true]
          exact cleanField_no_md
        | false => simp [h0, h1]

theorem numClassC_not_digit {c : Char} (h : numClassC c = true) : isDigitC c = false := by
  rw [Bool.eq_false_iff]
  intro hd
  simp only [numClassC, isWsChar, Bool.or_eq_true, beq_iff_eq] at h
  simp only [isDigitC, Bool.and_eq_true, decide_eq_true_eq] at hd
  omega

theorem takeWhile_all {p : Char → Bool} :
    ∀ {l : List Char}, (∀ c ∈ l, p c = true) → l.takeWhile p = l := by
  intro l
  induction l with
  | nil => intro _; rfl
  | cons c t ih =>
    intro h
    have hc := h c (by simp)
    simp [List.takeWhile_cons, hc, ih (fun x hx => h x (by simp [hx]))]

theorem stripNumMark_strips {d cl r : List Char}
    (hd : d ≠ []) (hcl : cl ≠ [])
    (hdd : ∀ c ∈ d, isDigitC c = true) (hcc : ∀ c ∈ cl, numClassC c = true)
    (hr : ∀ c, r.head? = some c → isDigitC c = false ∧ numClassC c = false) :
    stripNumMark (d ++ cl ++ r) = r := by
  obtain ⟨c0, cl', hcl'⟩ := List.exists_cons_of_ne_nil hcl
  subst hcl'
  have hc0 : numClassC c0 = true := hcc c0 (by simp)
  have htake : (d ++ (c0 :: cl') ++ r).takeWhile isDigitC = d := by
    rw [List.append_assoc, List.cons_append]
    exact takeWhile_append_stop hdd (numClassC_not_digit hc0)
  have hdrop : (d ++ (c0 :: cl') ++ r).dropWhile isDigitC = c0 :: (cl' ++ r) := by
    rw [List.append_assoc, List.cons_append]
    exact dropWhile_append_stop hdd (numClassC_not_digit hc0)
  have htake2 : (c0 :: (cl' ++ r)).takeWhile numClassC = c0 :: cl' := by
    cases r with
    | nil =>
      rw [List.append_nil]
      exact takeWhile_all hcc
    | cons rh rt =>
      have h := takeWhile_append_stop (r := rt) (d := c0 :: cl') hcc (hr rh rfl).2
      simpa using h
  have hdrop2 : (c0 :: (cl' ++ r)).dropWhile numClassC = r := by
    cases r with
    | nil =>
      rw [List.append_nil]
      exact List.dropWhile_eq_nil_iff.mpr hcc
    | cons rh rt =>
      have h := dropWhile_append_stop (r := rt) (d := c0 :: cl') hcc (hr rh rfl).2
      simpa using h
  have hne : d.isEmpty = false := by
    cases d with
    | nil => exact absurd rfl hd
    | cons _ _ => rfl
  rw [stripNumMark, htake, hdrop, htake2, hdrop2, hne]
  simp

/-- The script element opener whose unescaped presence in the body would be
script-capable markup. -/
def scriptTagL : List Char := '<' :: "script".data

/-- A markdown converter double that always succeeds with empty output. -/
def md0 : MarkedOpts → List Char → Option (List Char) := fun _ _ => some []

/-- A markdown converter double that always fails, modelling a marked call
that throws. -/
def mdFail : MarkedOpts → List Char → Option (List Char) := fun _ _ => none

/-! ### Claim theorems -/

/-- C1: for every raw generation text consisting of narrative text around a
well-formed MACROS_JSON block in the canonical wire format, the Response
Parser yields macro numbers equal to the numbers in the block exactly, the
narrative with the block stripped, and a rendering identical to the
rendering of the same text without the block - so no part of the block
reaches the extracted title, serving info or body. -/
theorem claim_c1 (md : MarkedOpts → List Char → Option (List Char))
    (pre post : List Char) (m : Macros)
    (hpre : ∀ c ∈ pre, c ≠ '<') (hpost : ∀ c ∈ post, c ≠ '<') :
    (parseResponse (pre ++ openTagL ++ serializeMacros m ++ closeTagL ++ post)).macros
      = some m ∧
    (parseResponse (pre ++ openTagL ++ serializeMacros m ++ closeTagL ++ post)).narrative
      = pre ++ post ∧
    renderMarkdown md (pre ++ openTagL ++ serializeMacros m ++ closeTagL ++ post) =
      renderMarkdown md (pre ++ post) := by
  refine ⟨?_, ?_, ?_⟩
  · show (extractBlock _).bind decodeMacros = some m
    rw [extractBlock_block hpre (serialize_no_lt m)]
    simp [decodeMacros_serialize]
  · exact stripMacros_block hpre (serialize_no_lt m) hpost
  · simp only [renderMarkdown, tryRender, cleanNarrative_block m hpre hpost]

/-- C2: the Response Parser never fails its caller: whenever the try branch
fails (the markdown converter throws), renderMarkdown degrades to the
line-by-line plain-text fallback of the cleaned text; and for a text whose
delimited block holds malformed JSON, the structured portion is null while
the narrative (block stripped) is still delivered, non-empty whenever the
surrounding text is non-empty. -/
theorem claim_c2 (md : MarkedOpts → List Char → Option (List Char)) (text : List Char) :
    (tryRender md text = none →
      renderMarkdown md text = .fallback (fallbackLines (cleanNarrative text))) ∧
    (∀ pre inner post : List Char,
      text = pre ++ openTagL ++ inner ++ closeTagL ++ post →
      (∀ c ∈ pre, c ≠ '<') → (∀ c ∈ inner, c ≠ '<') → (∀ c ∈ post, c ≠ '<') →
      decodeMacros inner = none →
      (parseResponse text).macros = none ∧
      (parseResponse text).narrative = pre ++ post ∧
      (pre ++ post ≠ [] → (parseResponse text).narrative ≠ [])) := by
  constructor
  · intro hnone
    rw [renderMarkdown, hnone]
    rfl
  · intro pre inner post htext hpre hinner hpost hbad
    subst htext
    refine ⟨?_, ?_, ?_⟩
    · show (extractBlock _).bind decodeMacros = none
      rw [extractBlock_block hpre hinner]
      simp [hbad]
    · exact stripMacros_block hpre hinner hpost
    · intro hne
      show stripMacros _ ≠ []
      rw [stripMacros_block hpre hinner hpost]
      exact hne

/-- C3: with an empty fridge the recommendation attempt fails fast with the
EmptyInventory error kind and the Generation Client call count is
unchanged - the request to the generative service is never issued; the
frontend recipe-generate button is likewise disabled when the fridge is
empty. -/
theorem claim_c3 (table : List Char → Option Nat) (now : Int) (pref : List Char)
    (client : List InvEntry → List Char → List Char) (calls : Nat) (generating : Bool) :
    recommend table now [] pref client calls = (.error .EmptyInventory, calls) ∧
    recipeGenerateDisabled generating [] = true := by
  constructor
  · simp [recommend, buildEligible]
  · simp [recipeGenerateDisabled]

/-- C10: a text that is exactly one MACROS_JSON block with only whitespace
around it renders without error to an empty result: no title, no serving
info, no body markup - the caller receives an empty narrative rather than
an error. -/
theorem claim_c10 (md : MarkedOpts → List Char → Option (List Char))
    (ws1 ws2 inner : List Char)
    (h1 : ∀ c ∈ ws1, isWsChar c = true) (h2 : ∀ c ∈ ws2, isWsChar c = true)
    (hinner : ∀ c ∈ inner, c ≠ '<') :
    renderMarkdown md (ws1 ++ openTagL ++ inner ++ closeTagL ++ ws2) =
      .rendered [] [] [] := by
  have hw1 : ∀ c ∈ ws1, c ≠ '<' := fun c hc => isWsChar_ne_lt (h1 c hc)
  have hw2 : ∀ c ∈ ws2, c ≠ '<' := fun c hc => isWsChar_ne_lt (h2 c hc)
  have hclean : cleanNarrative (ws1 ++ openTagL ++ inner ++ closeTagL ++ ws2) = [] := by
    rw [cleanNarrative, stripMacros_block hw1 hinner hw2, jsTrim_all_ws]
    · rfl
    · intro c hc
      rcases List.mem_append.mp hc with h | h
      exacts [h1 c h, h2 c h]
  exact renderMarkdown_of_clean_nil hclean

/-- C4 (counterexample): the claim as stated is false.  The first line of
this cleaned text starts with none of the section keywords and with no step
marker, so by the claim it should become the candidate title; the code
extracts no title because the line merely contains the substring of the
word step followed by a space. -/
theorem claim_c4_cex :
    specTitleHeaderFree ("Easy step by step stew".data) = true ∧
    extractParts ("Easy step by step stew\nServes 4".data) =
      ([], [], "Easy step by step stew\nServes 4".data) := by decide

/-- C4 (amended): the first line of the cleaned text is the candidate title
exactly when it is non-blank, does not start with the section keywords, and
does not contain the substring of the word step followed by a space
anywhere in the line; otherwise no title is extracted and the whole text
stays the body. -/
theorem claim_c4_amended (ct l0 : List Char) (rest : List (List Char))
    (hsplit : splitLines ct = l0 :: rest) :
    (titleCond l0 = true → (extractParts ct).1 = cleanField (jsTrim l0)) ∧
    (titleCond l0 = false → extractParts ct = ([], [], ct)) ∧
    titleCond l0 =
      (!(jsTrim l0).isEmpty &&
       !("ingredients".data.isPrefixOf (lowerL l0)) &&
       !("instructions".data.isPrefixOf (lowerL l0)) &&
       !("directions".data.isPrefixOf (lowerL l0)) &&
       !(containsSub "step ".data (lowerL l0))) := by
  refine ⟨?_, ?_, rfl⟩
  · intro h
    rw [extractParts, hsplit]
    cases rest with
    | nil => simp [h]
    | cons l1 r2 =>
      cases h1 : (!(jsTrim l1).isEmpty && servingCond l1) with
      | true => simp [h, h1]
      | false => simp [h, h1]
  · intro h
    rw [extractParts, hsplit]
    simp [h]

/-- C5: when a title was extracted from line 0, line 1 becomes the
serving/time metadata exactly when it is non-blank, mentions one of the
serving/time/prep/cook/total/yield keywords and does not itself start an
ingredients/instructions/directions section; otherwise it stays in the
recipe body. -/
theorem claim_c5 (ct l0 l1 : List Char) (rest : List (List Char))
    (hsplit : splitLines ct = l0 :: l1 :: rest) (htitle : titleCond l0 = true) :
    ((!(jsTrim l1).isEmpty && servingCond l1) = true →
      extractParts ct =
        (cleanField (jsTrim l0), cleanField (jsTrim l1), jsTrim (joinLines rest))) ∧
    ((!(jsTrim l1).isEmpty && servingCond l1) = false →
      extractParts ct =
        (cleanField (jsTrim l0), [], jsTrim (joinLines (l1 :: rest)))) := by
  constructor <;> intro h <;> (rw [extractParts, hsplit]; simp [htitle, h])

/-- C6 (counterexample): the claim as stated is false.  This narrative
starts with a sentence that ends in a colon, yet the preamble cleanup
leaves the text unchanged - the colon sentence even becomes the extracted
title - because the sentence matches none of the fixed preamble patterns. -/
theorem claim_c6_cex :
    cleanNarrative ("Try this tonight:\n\nPasta Bake".data) =
      "Try this tonight:\n\nPasta Bake".data ∧
    (extractParts (cleanNarrative ("Try this tonight:\n\nPasta Bake".data))).1 =
      "Try this tonight:".data := by decide

/-- C6 (amended): before title extraction the parser strips a fixed set of
eight known conversational preamble patterns; a leading sentence ending in
a colon is removed exactly when it matches one of them - for example a
let-me-suggest colon paragraph is stripped, while an unrecognized colon
sentence is kept. -/
theorem claim_c6_amended :
    cleanNarrative ("Let me suggest a perfect dish:\n\nPasta Bake\nServes 2".data) =
      "Pasta Bake\nServes 2".data ∧
    cleanNarrative ("Try this tonight:\n\nPasta Bake".data) =
      "Try this tonight:\n\nPasta Bake".data := by decide

/-- C7 (counterexample): the claim as stated is false.  A doubled leading
numbered-list indicator is stripped only once, so the extracted title still
begins with a numbered-list indicator. -/
theorem claim_c7_cex :
    (extractParts ("1) 2) Garlic Pasta\nBody".data)).1 = "2) Garlic Pasta".data ∧
    startsNumMark ("2) Garlic Pasta".data) = true := by decide

/-- C7 (amended): both extracted fields contain no asterisk, underscore or
backtick characters (hence no bold markers), and a single leading
numbered-list indicator (digits followed by indicator-class characters) is
stripped once - a second consecutive indicator may remain. -/
theorem claim_c7_amended (ct : List Char) (d cl r : List Char)
    (hd : d ≠ []) (hcl : cl ≠ [])
    (hdd : ∀ c ∈ d, isDigitC c = true) (hcc : ∀ c ∈ cl, numClassC c = true)
    (hr : ∀ c, r.head? = some c → isDigitC c = false ∧ numClassC c = false) :
    (∀ c ∈ (extractParts ct).1, mdMarkC c = false) ∧
    (∀ c ∈ (extractParts ct).2.1, mdMarkC c = false) ∧
    stripNumMark (d ++ cl ++ r) = r :=
  ⟨extractParts_fst_no_md ct, extractParts_snd_no_md ct,
    stripNumMark_strips hd hcl hdd hcc hr⟩

/-- C8: the rendered recipe body is produced only by the markdown converter
invoked with the sanitize flag set (or is empty); hence if the converter
honours its sanitize contract - sanitized output holds no script element
opener - the body passed to the HTML sink never contains unescaped
script-capable markup. -/
theorem claim_c8 (md : MarkedOpts → List Char → Option (List Char))
    (text t s h : List Char)
    (hsan : ∀ opts rem out, opts.sanitize = true → md opts rem = some out →
      containsSub scriptTagL (lowerL out) = false)
    (hres : renderMarkdown md text = .rendered t s h) :
    containsSub scriptTagL (lowerL h) = false := by
  cases htr : tryRender md text with
  | none =>
    rw [renderMarkdown, htr] at hres
    exact absurd hres (by simp [orFallback])
  | some r =>
    rw [renderMarkdown, htr] at hres
    have hr : r = .rendered t s h := hres
    subst hr
    rw [tryRender] at htr
    by_cases he : (extractParts (cleanNarrative text)).2.2.isEmpty = true
    · rw [if_pos he] at htr
      simp only [Option.some.injEq, RenderResult.rendered.injEq] at htr
      rw [← htr.2.2]
      decide
    · rw [if_neg he] at htr
      cases hmd : md markedOpts (extractParts (cleanNarrative text)).2.2 with
      | none => rw [hmd] at htr; cases htr
      | some out =>
        rw [hmd] at htr
        simp only [Option.some.injEq, RenderResult.rendered.injEq] at htr
        rw [← htr.2.2]
        exact hsan markedOpts _ out rfl hmd

/-- C9 (counterexample): the claim as stated is false.  renderMarkdown is
not side-effect free: a call overwrites the module-global marked option
state with its own option record, so the global state after a call differs
from a prior state in which the flags were unset. -/
theorem claim_c9_cex :
    (renderMarkdownS md0 ⟨false, false, false, false, false⟩ ("hi".data)).1 ≠
      ⟨false, false, false, false, false⟩ := by decide

/-- C9 (amended): renderMarkdown is deterministic - its result is the same
for any two prior global marked option states, so two invocations on the
same text return identical results - but it is not side-effect free: every
call leaves the module-global marked options equal to the record it sets
via marked.setOptions. -/
theorem claim_c9_amended (md : MarkedOpts → List Char → Option (List Char))
    (g g' : MarkedOpts) (t : List Char) :
    (renderMarkdownS md g t).2 = (renderMarkdownS md g' t).2 ∧
    (renderMarkdownS md g t).1 = markedOpts :=
  ⟨rfl, rfl⟩

/-! ### Witnesses -/

theorem claim_c1_witness :
    (parseResponse ("Dinner plan\n".data ++ openTagL ++
      serializeMacros ⟨500, 30, 40, 15⟩ ++ closeTagL ++ "Enjoy!".data)).macros =
      some ⟨500, 30, 40, 15⟩ :=
  (claim_c1 md0 ("Dinner plan\n".data) ("Enjoy!".data) ⟨500, 30, 40, 15⟩
    (by decide) (by decide)).1

theorem claim_c2_witness :
    renderMarkdown mdFail ("<MACROS_JSON>oops</MACROS_JSON>Mix flour\nBake well".data) =
      .fallback (fallbackLines
        (cleanNarrative ("<MACROS_JSON>oops</MACROS_JSON>Mix flour\nBake well".data))) ∧
    (parseResponse ("<MACROS_JSON>oops</MACROS_JSON>Mix flour\nBake well".data)).macros
      = none :=
  ⟨(claim_c2 mdFail ("<MACROS_JSON>oops</MACROS_JSON>Mix flour\nBake well".data)).1
      (by decide),
   ((claim_c2 mdFail ("<MACROS_JSON>oops</MACROS_JSON>Mix flour\nBake well".data)).2
      [] ("oops".data) ("Mix flour\nBake well".data)
      (by decide) (by decide) (by decide) (by decide) (by decide)).1⟩

theorem claim_c4_witness :
    (extractParts ("Garlic Pasta\nServes 2".data)).1 =
      cleanField (jsTrim ("Garlic Pasta".data)) ∧
    extractParts ("Ingredients:\nsalt".data) = ([], [], "Ingredients:\nsalt".data) :=
  ⟨(claim_c4_amended ("Garlic Pasta\nServes 2".data) ("Garlic Pasta".data)
      ["Serves 2".data] (by decide)).1 (by decide),
   (claim_c4_amended ("Ingredients:\nsalt".data) ("Ingredients:".data)
      ["salt".data] (by decide)).2.1 (by decide)⟩

theorem claim_c5_witness :
    extractParts ("Garlic Pasta\nServings: 4\nIngredients:\nsalt".data) =
      (cleanField (jsTrim ("Garlic Pasta".data)),
       cleanField (jsTrim ("Servings: 4".data)),
       jsTrim (joinLines ["Ingredients:".data, "salt".data])) ∧
    extractParts ("Garlic Pasta\nMix well\nsalt".data) =
      (cleanField (jsTrim ("Garlic Pasta".data)), [],
       jsTrim (joinLines ["Mix well".data, "salt".data])) :=
  ⟨(claim_c5 ("Garlic Pasta\nServings: 4\nIngredients:\nsalt".data)
      ("Garlic Pasta".data) ("Servings: 4".data) ["Ingredients:".data, "salt".data]
      (by decide) (by decide)).1 (by decide),
   (claim_c5 ("Garlic Pasta\nMix well\nsalt".data)
      ("Garlic Pasta".data) ("Mix well".data) ["salt".data]
      (by decide) (by decide)).2 (by decide)⟩

theorem claim_c7_witness :
    (∀ c ∈ (extractParts ("**Spicy _Tofu_**\nServings: 2\nBody".data)).1,
      mdMarkC c = false) ∧
    (∀ c ∈ (extractParts ("**Spicy _Tofu_**\nServings: 2\nBody".data)).2.1,
      mdMarkC c = false) ∧
    stripNumMark ("12".data ++ ". ".data ++ "Tacos".data) = "Tacos".data :=
  claim_c7_amended ("**Spicy _Tofu_**\nServings: 2\nBody".data)
    ("12".data) (". ".data) ("Tacos".data)
    (by decide) (by decide) (by decide) (by decide)
    (by
      intro c hc
      rw [show ("Tacos".data.head?) = some 'T' from rfl] at hc
      injection hc with h2
      subst h2
      exact ⟨by decide, by decide⟩)

theorem claim_c8_witness :
    containsSub scriptTagL (lowerL []) = false :=
  claim_c8 md0 ("Tasty Soup\nMix well".data) ("Tasty Soup".data) [] []
    (by
      intro opts rem out _ hmd
      injection hmd with h2
      subst h2
      decide)
    (by decide)

theorem claim_c10_witness :
    renderMarkdown md0 ("  ".data ++ openTagL ++ "x".data ++ closeTagL ++ "\n".data) =
      .rendered [] [] [] :=
  claim_c10 md0 ("  ".data) ("\n".data) ("x".data) (by decide) (by decide) (by decide)

end Basil
